import Mathlib

/-!
Shallow embedding of the Snake game engine from `src/components/SnakeGame.tsx`
(the other source variant under `src/unnamed/part_000` has identical simulation
logic and differs only in rendering constants).  Positions use `Int`
coordinates because the new head may leave the grid (e.g. `x = -1`) before the
collision check runs.  The calls to `Math.random()` inside `generateFood` are
modelled by an explicit list of candidate cells; exhausting the list models
non-termination of the rejection-sampling loop and yields `none`.
-/

namespace Snake

/-- Grid cell, mirroring the `Position` type (`{x, y}`) of the source. -/
structure Position where
  x : Int
  y : Int
deriving DecidableEq, Repr

/-- Movement direction, mirroring `type Direction = 'UP' | 'DOWN' | 'LEFT' | 'RIGHT'`. -/
inductive Direction
  | UP
  | DOWN
  | LEFT
  | RIGHT
deriving DecidableEq, Repr

/-- Lifecycle phase, mirroring `type GameState = 'idle' | 'playing' | 'paused' | 'gameOver'`. -/
inductive GameState
  | idle
  | playing
  | paused
  | gameOver
deriving DecidableEq, Repr

/-- Grid side length, mirroring `const GRID_SIZE = 20`. -/
def GRID_SIZE : Int := 20

/-- Initial snake body, mirroring `const INITIAL_SNAKE` (a vertical line of three cells). -/
def INITIAL_SNAKE : List Position :=
  [{ x := 10, y := 10 }, { x := 10, y := 11 }, { x := 10, y := 12 }]

/-- Initial direction, mirroring `const INITIAL_DIRECTION: Direction = 'UP'`. -/
def INITIAL_DIRECTION : Direction := Direction.UP

/-- Full engine state: the React `useState` cells of `SnakeGame`, plus `storage`,
which models the content of `localStorage.getItem('snakeHighScore')` so that the
write-through in the game loop is observable. -/
structure Game where
  snake : List Position
  food : Position
  direction : Direction
  nextDirection : Direction
  gameState : GameState
  score : Nat
  highScore : Int
  storage : Option String
deriving DecidableEq, Repr

/-- Cell equality test mirroring `segment.x === p.x && segment.y === p.y` comparisons. -/
def sameCell (a b : Position) : Bool :=
  a.x == b.x && a.y == b.y

/-- Rejection sampling of `generateFood`: each `Math.random()` draw of the
do-while loop is the next element of `randoms`; the loop keeps drawing while
the candidate lies on `currentSnake`.  `none` models running out of supplied
draws (the source loop would keep iterating). -/
def generateFood (randoms : List Position) (currentSnake : List Position) : Option Position :=
  match randoms with
  | [] => none
  | newFood :: rest =>
    if currentSnake.any (fun segment => sameCell segment newFood) then
      generateFood rest currentSnake
    else
      some newFood

/-- Collision predicate of `checkCollision`: wall collision when a coordinate
leaves `[0, GRID_SIZE)`, otherwise self collision against every cell of
`snakeBody`. -/
def checkCollision (head : Position) (snakeBody : List Position) : Bool :=
  if head.x < 0 ∨ head.x ≥ GRID_SIZE ∨ head.y < 0 ∨ head.y ≥ GRID_SIZE then
    true
  else
    snakeBody.any (fun segment => sameCell segment head)

/-- Head displacement of the `switch (nextDirection)` block of the game loop. -/
def moveHead (head : Position) (d : Direction) : Position :=
  match d with
  | Direction.UP => { head with y := head.y - 1 }
  | Direction.DOWN => { head with y := head.y + 1 }
  | Direction.LEFT => { head with x := head.x - 1 }
  | Direction.RIGHT => { head with x := head.x + 1 }

/-- One firing of the `setInterval` game-loop callback. In source order: copy
the head of `prevSnake`, move it along `nextDirection`, commit
`setDirection(nextDirection)`, check collision (on failure set `gameOver` and
return `prevSnake` unchanged), prepend the new head, then either eat (score
+10, conditional high-score update with `localStorage.setItem` write-through,
food regenerated avoiding the grown snake) or pop the tail.  `none` models the
untranslatable cases: an empty snake (`prevSnake[0]` undefined) or food
regeneration exhausting the supplied random draws. -/
def step (randoms : List Position) (g : Game) : Option Game :=
  match g.snake with
  | [] => none
  | h0 :: _ =>
    let head := moveHead h0 g.nextDirection
    let g1 := { g with direction := g.nextDirection }
    if checkCollision head g.snake then
      some { g1 with gameState := GameState.gameOver }
    else
      let newSnake := head :: g.snake
      if sameCell head g.food then
        let newScore := g.score + 10
        let g2 :=
          if (newScore : Int) > g1.highScore then
            { g1 with highScore := (newScore : Int), storage := some (toString newScore) }
          else g1
        match generateFood randoms newSnake with
        | none => none
        | some f => some { g2 with snake := newSnake, food := f, score := newScore }
      else
        some { g1 with snake := newSnake.dropLast }

/-- Mirrors `startGame`. -/
def startGame (g : Game) : Game :=
  { g with gameState := GameState.playing }

/-- Mirrors `togglePause`. -/
def togglePause (g : Game) : Game :=
  { g with gameState :=
      if g.gameState = GameState.playing then GameState.paused else GameState.playing }

/-- Mirrors `resetGame`: restores the initial snake and directions, rerolls the
food over the initial snake, zeroes the score, and returns to `idle`.  The high
score and the persisted storage are untouched. -/
def resetGame (randoms : List Position) (g : Game) : Option Game :=
  match generateFood randoms INITIAL_SNAKE with
  | none => none
  | some f =>
    some { g with snake := INITIAL_SNAKE, direction := INITIAL_DIRECTION,
                  nextDirection := INITIAL_DIRECTION, food := f, score := 0,
                  gameState := GameState.idle }

/-- The `switch (e.key)` mapping of `handleKeyPress` from key names (arrows and
WASD in both cases) to directions. -/
def keyToDirection (key : String) : Option Direction :=
  if key = "ArrowUp" ∨ key = "w" ∨ key = "W" then some Direction.UP
  else if key = "ArrowDown" ∨ key = "s" ∨ key = "S" then some Direction.DOWN
  else if key = "ArrowLeft" ∨ key = "a" ∨ key = "A" then some Direction.LEFT
  else if key = "ArrowRight" ∨ key = "d" ∨ key = "D" then some Direction.RIGHT
  else none

/-- The `opposites` record used by every 180-degree-turn filter in the source. -/
def opposites : Direction → Direction
  | Direction.UP => Direction.DOWN
  | Direction.DOWN => Direction.UP
  | Direction.LEFT => Direction.RIGHT
  | Direction.RIGHT => Direction.LEFT

/-- Keyboard handler `handleKeyPress`.  While `idle`, only the four arrow keys
and space start the game (and nothing touches `nextDirection`); while
`gameOver`, space or Enter resets; otherwise (`playing` or `paused`) space
toggles pause and a recognised direction key updates `nextDirection` unless it
is the reverse of the committed `direction`. -/
def handleKeyPress (key : String) (randoms : List Position) (g : Game) : Option Game :=
  if g.gameState = GameState.idle then
    if key = "ArrowUp" ∨ key = "ArrowDown" ∨ key = "ArrowLeft" ∨ key = "ArrowRight" ∨ key = " " then
      some (startGame g)
    else some g
  else if g.gameState = GameState.gameOver then
    if key = " " ∨ key = "Enter" then resetGame randoms g else some g
  else if key = " " then
    some (togglePause g)
  else
    match keyToDirection key with
    | none => some g
    | some newDirection =>
      if opposites g.direction ≠ newDirection then
        some { g with nextDirection := newDirection }
      else some g

/-- On-screen button handler `handleDirectionClick`: while `idle` it starts the
game and sets the pressed direction as pending; it ignores every phase other
than `playing`; while `playing` it applies the reversal filter against the
committed `direction`. -/
def handleDirectionClick (newDirection : Direction) (g : Game) : Game :=
  if g.gameState = GameState.idle then
    { g with gameState := GameState.playing, nextDirection := newDirection }
  else if g.gameState ≠ GameState.playing then g
  else if opposites g.direction ≠ newDirection then
    { g with nextDirection := newDirection }
  else g

/-- Swipe classification of `handleTouchEnd`: the axis with the larger absolute
delta wins, ties favour the vertical axis. -/
def swipeDir (deltaX deltaY : Int) : Direction :=
  if deltaY.natAbs < deltaX.natAbs then
    (if 0 < deltaX then Direction.RIGHT else Direction.LEFT)
  else
    (if 0 < deltaY then Direction.DOWN else Direction.UP)

/-- Touch handler `handleTouchEnd` with the gesture deltas as integers: below
the 30-unit threshold on both axes it is a tap (start / toggle pause / reset by
phase); otherwise it is a swipe, which only while `playing` updates
`nextDirection` through the reversal filter. -/
def handleTouchEnd (deltaX deltaY : Int) (randoms : List Position) (g : Game) : Option Game :=
  if deltaX.natAbs < 30 ∧ deltaY.natAbs < 30 then
    if g.gameState = GameState.idle then some (startGame g)
    else if g.gameState = GameState.playing ∨ g.gameState = GameState.paused then
      some (togglePause g)
    else if g.gameState = GameState.gameOver then resetGame randoms g
    else some g
  else
    if g.gameState = GameState.playing then
      if opposites g.direction ≠ swipeDir deltaX deltaY then
        some { g with nextDirection := swipeDir deltaX deltaY }
      else some g
    else some g

/-- State at mount: the `useState` initial values of the component.  The food
starts at the fixed cell `(5,5)`; `hs` is the high score after the mount-time
load effect (when it yielded a number) and `stored` the persisted string it was
read from. -/
def initialGame (hs : Int) (stored : Option String) : Game :=
  { snake := INITIAL_SNAKE, food := { x := 5, y := 5 }, direction := INITIAL_DIRECTION,
    nextDirection := INITIAL_DIRECTION, gameState := GameState.idle, score := 0,
    highScore := hs, storage := stored }

/-- Modelled from the spec: the creation-time food of the claim "created once
per game session at Idle with Score=0, initial Snake, and a freshly randomized
Food" — a fresh rejection-sampling draw over the initial snake, for comparison
with the source's fixed initial food `(5,5)`. -/
def specFreshFood (randoms : List Position) : Option Position :=
  generateFood randoms INITIAL_SNAKE

/-- External stimuli that mutate the engine state: a scheduler tick, a
keyboard event, an on-screen direction button, a touch gesture, and the two
overlay buttons wired directly to `startGame` / `resetGame`. -/
inductive Event
  | tick (randoms : List Position)
  | key (k : String) (randoms : List Position)
  | dirClick (d : Direction)
  | touch (deltaX deltaY : Int) (randoms : List Position)
  | startBtn
  | resetBtn (randoms : List Position)

/-- Effect of one event on the state.  A tick runs the game-loop callback only
while `playing` (the `if (gameState !== 'playing') return` guard of the
interval effect). -/
def applyEvent (e : Event) (g : Game) : Option Game :=
  match e with
  | Event.tick randoms => if g.gameState = GameState.playing then step randoms g else some g
  | Event.key k randoms => handleKeyPress k randoms g
  | Event.dirClick d => some (handleDirectionClick d g)
  | Event.touch dx dy randoms => handleTouchEnd dx dy randoms g
  | Event.startBtn => some (startGame g)
  | Event.resetBtn randoms => resetGame randoms g

/-- States reachable from some mount-time state by any sequence of events. -/
inductive Reachable : Game → Prop
  | init (hs : Int) (stored : Option String) : Reachable (initialGame hs stored)
  | next (g g' : Game) (e : Event) : Reachable g → applyEvent e g = some g' → Reachable g'

/-- JavaScript number restricted to what the high-score path can produce:
an integer or NaN. -/
inductive JsNum
  | num (v : Int)
  | nan
deriving DecidableEq, Repr

/-- Leading decimal digits of a character list. -/
def leadingDigits (cs : List Char) : List Char :=
  cs.takeWhile Char.isDigit

/-- Numeric value of a list of decimal digits. -/
def digitsVal (cs : List Char) : Nat :=
  cs.foldl (fun acc c => 10 * acc + (c.toNat - 48)) 0

/-- Model of JavaScript `parseInt(s, 10)`: skip leading whitespace, accept an
optional sign, then read leading decimal digits; `NaN` when no digit follows. -/
def parseIntJS (s : String) : JsNum :=
  let cs := s.data.dropWhile Char.isWhitespace
  match cs with
  | [] => JsNum.nan
  | c :: rest =>
    if c = '-' then
      match leadingDigits rest with
      | [] => JsNum.nan
      | ds => JsNum.num (-(digitsVal ds : Int))
    else if c = '+' then
      match leadingDigits rest with
      | [] => JsNum.nan
      | ds => JsNum.num (digitsVal ds)
    else
      match leadingDigits cs with
      | [] => JsNum.nan
      | ds => JsNum.num (digitsVal ds)

/-- The mount-time load effect: `localStorage.getItem('snakeHighScore')` feeds
`if (savedHighScore) setHighScore(parseInt(savedHighScore, 10))`.  A missing
value (and the falsy empty string) leaves the initial high score 0; any other
stored string is handed to `parseInt`. -/
def initHighScore (stored : Option String) : JsNum :=
  match stored with
  | none => JsNum.num 0
  | some s => if s = "" then JsNum.num 0 else parseIntJS s

/-- Invariant of the engine state: the snake is never empty, holds no
duplicate cell, and the food lies off the snake. -/
def Inv (g : Game) : Prop :=
  g.snake ≠ [] ∧ g.snake.Nodup ∧ g.food ∉ g.snake

/-- Spec scenario state: grid 20, snake `[(10,10),(10,11),(10,12)]`, facing and
pending `Up`, while `playing`, with the food away from the snake's path. -/
def scenarioG : Game :=
  { snake := INITIAL_SNAKE, food := { x := 5, y := 5 }, direction := Direction.UP,
    nextDirection := Direction.UP, gameState := GameState.playing, score := 0,
    highScore := 0, storage := none }

/-- Spec scenario state with the food directly in the snake's path at `(10,9)`. -/
def eatG : Game :=
  { scenarioG with food := { x := 10, y := 9 } }

/-- Spec scenario state: a single-cell snake at `(0,5)` about to move left off the grid. -/
def wallG : Game :=
  { scenarioG with snake := [{ x := 0, y := 5 }], nextDirection := Direction.LEFT }

/-- The scenario state while paused. -/
def pausedG : Game :=
  { scenarioG with gameState := GameState.paused }

/-- A finished game with a score on the board, for exercising `resetGame`. -/
def doneG : Game :=
  { scenarioG with score := 30, highScore := 50, gameState := GameState.gameOver }

/-- Key name of the W key. -/
def keyW : String := "w"

/-- Key name of the left arrow. -/
def keyArrowLeft : String := "ArrowLeft"

/-- Key name of the down arrow. -/
def keyArrowDown : String := "ArrowDown"

/-- A stored high-score string that is not a number. -/
def strAbc : String := "abc"

/-- The empty stored string (falsy in JavaScript). -/
def strEmpty : String := ""

/-- Expected result of the eating-scenario step: grown snake, score 10, high
score 10 written through, food resampled at the first draw `(0,0)`. -/
def eatResult : Game :=
  { snake := [{ x := 10, y := 9 }, { x := 10, y := 10 }, { x := 10, y := 11 }, { x := 10, y := 12 }],
    food := { x := 0, y := 0 }, direction := Direction.UP, nextDirection := Direction.UP,
    gameState := GameState.playing, score := 10, highScore := 10,
    storage := some (toString (10 : Nat)) }

/-- Expected result of the wall-collision scenario step. -/
def wallResult : Game :=
  { wallG with direction := Direction.LEFT, gameState := GameState.gameOver }

/-- Expected result of resetting `doneG` with first food draw `(0,0)`. -/
def resetResult : Game :=
  { doneG with snake := INITIAL_SNAKE, direction := INITIAL_DIRECTION,
               nextDirection := INITIAL_DIRECTION, food := { x := 0, y := 0 },
               score := 0, gameState := GameState.idle }

/-- Boolean cell comparison agrees with propositional equality of positions. -/
lemma sameCell_iff (a b : Position) : sameCell a b = true ↔ a = b := by
  cases a
  cases b
  simp [sameCell, Position.mk.injEq]

/-- The `Array.some`-style membership scan used throughout the source agrees
with list membership. -/
lemma any_sameCell_iff (l : List Position) (p : Position) :
    (l.any fun segment => sameCell segment p) = true ↔ p ∈ l := by
  simp [List.any_eq_true, sameCell_iff]

/-- Rejection sampling never returns a cell of the avoided snake. -/
lemma generateFood_not_mem (randoms s : List Position) (f : Position)
    (h : generateFood randoms s = some f) : f ∉ s := by
  induction randoms with
  | nil => simp [generateFood] at h
  | cons c rest ih =>
    rw [generateFood] at h
    split at h
    · exact ih h
    · next hc =>
      obtain rfl : c = f := by injection h
      intro hm
      exact hc ((any_sameCell_iff s c).mpr hm)

/-- Characterisation of `checkCollision`: it fires exactly on leaving the grid
or landing on a cell of the given body. -/
lemma checkCollision_iff (h : Position) (s : List Position) :
    checkCollision h s = true ↔
      (h.x < 0 ∨ h.x ≥ GRID_SIZE ∨ h.y < 0 ∨ h.y ≥ GRID_SIZE ∨ h ∈ s) := by
  rw [checkCollision]
  split
  · next hb => simp only [true_iff]; tauto
  · next hb =>
    simp only [any_sameCell_iff]
    constructor
    · intro hm
      exact Or.inr (Or.inr (Or.inr (Or.inr hm)))
    · intro hor
      rcases hor with h1 | h2 | h3 | h4 | h5
      · exact absurd (Or.inl h1) hb
      · exact absurd (Or.inr (Or.inl h2)) hb
      · exact absurd (Or.inr (Or.inr (Or.inl h3))) hb
      · exact absurd (Or.inr (Or.inr (Or.inr h4))) hb
      · exact h5

/-- A head that passed the collision check is not on the checked body. -/
lemma checkCollision_false_not_mem (h : Position) (s : List Position)
    (hc : checkCollision h s = false) : h ∉ s := by
  intro hm
  have := (checkCollision_iff h s).mpr (Or.inr (Or.inr (Or.inr (Or.inr hm))))
  rw [hc] at this
  exact Bool.false_ne_true this

/-- Shape of a colliding tick: phase becomes `gameOver`, the pending direction
is still committed, everything else is untouched. -/
lemma step_collision_eq (randoms : List Position) (g : Game) (h0 : Position)
    (rest : List Position) (hs : g.snake = h0 :: rest)
    (hc : checkCollision (moveHead h0 g.nextDirection) g.snake = true) :
    step randoms g =
      some { g with direction := g.nextDirection, gameState := GameState.gameOver } := by
  rw [hs] at hc
  simp [step, hs, hc]

/-- Shape of a successful non-eating tick: the new head is prepended and the
tail cell dropped; score, food, high score and storage are untouched. -/
lemma step_move_eq (randoms : List Position) (g : Game) (h0 : Position)
    (rest : List Position) (hs : g.snake = h0 :: rest)
    (hc : checkCollision (moveHead h0 g.nextDirection) g.snake = false)
    (hf : sameCell (moveHead h0 g.nextDirection) g.food = false) :
    step randoms g =
      some { g with direction := g.nextDirection,
                    snake := moveHead h0 g.nextDirection :: g.snake.dropLast } := by
  rw [hs] at hc
  simp [step, hs, hc, hf]

/-- Shape of a successful eating tick: head prepended with no tail drop, score
raised by 10, food replaced by the sampled cell, and the high score (with its
storage write-through) updated exactly when the new score beats it. -/
lemma step_eat_eq (randoms : List Position) (g : Game) (h0 : Position)
    (rest : List Position) (f : Position) (hs : g.snake = h0 :: rest)
    (hc : checkCollision (moveHead h0 g.nextDirection) g.snake = false)
    (hf : sameCell (moveHead h0 g.nextDirection) g.food = true)
    (hg : generateFood randoms (moveHead h0 g.nextDirection :: g.snake) = some f) :
    step randoms g =
      some { g with direction := g.nextDirection,
                    snake := moveHead h0 g.nextDirection :: g.snake,
                    food := f,
                    score := g.score + 10,
                    highScore := if ((g.score + 10 : Nat) : Int) > g.highScore
                                 then ((g.score + 10 : Nat) : Int) else g.highScore,
                    storage := if ((g.score + 10 : Nat) : Int) > g.highScore
                               then some (toString (g.score + 10)) else g.storage } := by
  rw [hs] at hc
  rw [hs] at hg
  simp [step, hs, hc, hf, hg]
  split_ifs with hh
  · simp
  · simp

/-- An eating tick whose food regeneration exhausts the random draws has no
translated result. -/
lemma step_eat_none (randoms : List Position) (g : Game) (h0 : Position)
    (rest : List Position) (hs : g.snake = h0 :: rest)
    (hc : checkCollision (moveHead h0 g.nextDirection) g.snake = false)
    (hf : sameCell (moveHead h0 g.nextDirection) g.food = true)
    (hg : generateFood randoms (moveHead h0 g.nextDirection :: g.snake) = none) :
    step randoms g = none := by
  rw [hs] at hc
  rw [hs] at hg
  simp [step, hs, hc, hf, hg]

/-- Keys recognised as directions are never the space key. -/
lemma keyToDirection_ne_space (k : String) (d : Direction)
    (h : keyToDirection k = some d) : ¬ k = " " := by
  intro hk
  rw [hk] at h
  rw [show keyToDirection " " = none from by decide] at h
  cases h

/-- C1: in every successful (non-colliding) simulation step whose new head
misses the food, the final snake is the new head prepended to the pre-move
snake with its last element removed, keeping the length unchanged. -/
theorem C1_translation_step (randoms : List Position) (g : Game) (h0 : Position)
    (rest : List Position) (hs : g.snake = h0 :: rest)
    (hc : checkCollision (moveHead h0 g.nextDirection) g.snake = false)
    (hf : moveHead h0 g.nextDirection ≠ g.food) :
    step randoms g =
      some { g with
             direction := g.nextDirection,
             snake := moveHead h0 g.nextDirection :: g.snake.dropLast } ∧
    (moveHead h0 g.nextDirection :: g.snake.dropLast).length = g.snake.length := by
  have hf' : sameCell (moveHead h0 g.nextDirection) g.food = false :=
    Bool.eq_false_iff.mpr (fun h => hf ((sameCell_iff _ _).mp h))
  refine ⟨step_move_eq randoms g h0 rest hs hc hf', ?_⟩
  rw [hs]
  simp [List.length_dropLast]

/-- C1 witness: the spec scenario — snake `[(10,10),(10,11),(10,12)]`, pending
`Up`, no food at `(10,9)` — steps to snake `[(10,9),(10,10),(10,11)]`. -/
theorem C1_translation_step_witness :
    (scenarioG.snake = { x := 10, y := 10 } :: [{ x := 10, y := 11 }, { x := 10, y := 12 }] ∧
     checkCollision (moveHead { x := 10, y := 10 } scenarioG.nextDirection) scenarioG.snake = false ∧
     moveHead { x := 10, y := 10 } scenarioG.nextDirection ≠ scenarioG.food) ∧
    (step [] scenarioG =
      some { scenarioG with
             direction := scenarioG.nextDirection,
             snake := moveHead { x := 10, y := 10 } scenarioG.nextDirection :: scenarioG.snake.dropLast } ∧
     (moveHead { x := 10, y := 10 } scenarioG.nextDirection :: scenarioG.snake.dropLast).length =
       scenarioG.snake.length) ∧
    (step [] scenarioG).map Game.snake =
      some [{ x := 10, y := 9 }, { x := 10, y := 10 }, { x := 10, y := 11 }] :=
  ⟨⟨by decide, by decide, by decide⟩,
   C1_translation_step [] scenarioG { x := 10, y := 10 }
     [{ x := 10, y := 11 }, { x := 10, y := 12 }] (by decide) (by decide) (by decide),
   by decide⟩


/-- C2: an eating step (new head on the food, no collision) raises the score by
exactly 10, grows the snake by exactly one cell (head prepended, no tail drop),
and samples a food cell off the grown snake; a non-eating step leaves score and
length unchanged. -/
theorem C2_eat_growth (randoms : List Position) (g g' : Game) (h0 : Position)
    (rest : List Position) (hs : g.snake = h0 :: rest)
    (hstep : step randoms g = some g') :
    ((moveHead h0 g.nextDirection = g.food ∧
        checkCollision (moveHead h0 g.nextDirection) g.snake = false) →
      g'.score = g.score + 10 ∧
      g'.snake = moveHead h0 g.nextDirection :: g.snake ∧
      g'.snake.length = g.snake.length + 1 ∧
      g'.food ∉ g'.snake) ∧
    (moveHead h0 g.nextDirection ≠ g.food →
      g'.score = g.score ∧ g'.snake.length = g.snake.length) := by
  constructor
  · rintro ⟨hfeq, hc⟩
    have hf : sameCell (moveHead h0 g.nextDirection) g.food = true :=
      (sameCell_iff _ _).mpr hfeq
    rcases hgf : generateFood randoms (moveHead h0 g.nextDirection :: g.snake) with _ | f
    · rw [step_eat_none randoms g h0 rest hs hc hf hgf] at hstep
      cases hstep
    · have heq := step_eat_eq randoms g h0 rest f hs hc hf hgf
      rw [hstep] at heq
      injection heq with heq
      subst heq
      refine ⟨rfl, rfl, by simp, ?_⟩
      exact generateFood_not_mem _ _ _ hgf
  · intro hfne
    have hf : sameCell (moveHead h0 g.nextDirection) g.food = false :=
      Bool.eq_false_iff.mpr (fun h => hfne ((sameCell_iff _ _).mp h))
    cases hcc : checkCollision (moveHead h0 g.nextDirection) g.snake with
    | true =>
      have heq := step_collision_eq randoms g h0 rest hs hcc
      rw [hstep] at heq
      injection heq with heq
      subst heq
      exact ⟨rfl, rfl⟩
    | false =>
      have heq := step_move_eq randoms g h0 rest hs hcc hf
      rw [hstep] at heq
      injection heq with heq
      subst heq
      refine ⟨rfl, ?_⟩
      show (moveHead h0 g.nextDirection :: g.snake.dropLast).length = g.snake.length
      rw [hs]
      simp [List.length_dropLast]

/-- C2 witness: the spec scenario with food at `(10,9)` — the step scores 10,
grows the snake to `[(10,9),(10,10),(10,11),(10,12)]`, and resamples the food
off those four cells. -/
theorem C2_eat_growth_witness :
    (eatG.snake = { x := 10, y := 10 } :: [{ x := 10, y := 11 }, { x := 10, y := 12 }] ∧
     step [{ x := 0, y := 0 }] eatG = some eatResult ∧
     moveHead { x := 10, y := 10 } eatG.nextDirection = eatG.food ∧
     checkCollision (moveHead { x := 10, y := 10 } eatG.nextDirection) eatG.snake = false) ∧
    (eatResult.score = eatG.score + 10 ∧
     eatResult.snake = moveHead { x := 10, y := 10 } eatG.nextDirection :: eatG.snake ∧
     eatResult.snake.length = eatG.snake.length + 1 ∧
     eatResult.food ∉ eatResult.snake) :=
  ⟨⟨by decide, by decide, by decide, by decide⟩,
   (C2_eat_growth [{ x := 0, y := 0 }] eatG eatResult { x := 10, y := 10 }
     [{ x := 10, y := 11 }, { x := 10, y := 12 }] (by decide) (by decide)).1
     ⟨by decide, by decide⟩⟩

/-- C3: a step reaches `gameOver` exactly when the new head leaves `[0, 20)` in
a coordinate or lands on a cell of the pre-move snake (old head included), and
a terminating step leaves snake, food, score, high score and storage untouched. -/
theorem C3_collision_terminates (randoms : List Position) (g g' : Game) (h0 : Position)
    (rest : List Position) (hs : g.snake = h0 :: rest)
    (hplay : g.gameState = GameState.playing)
    (hstep : step randoms g = some g') :
    (g'.gameState = GameState.gameOver ↔
      ((moveHead h0 g.nextDirection).x < 0 ∨ (moveHead h0 g.nextDirection).x ≥ GRID_SIZE ∨
       (moveHead h0 g.nextDirection).y < 0 ∨ (moveHead h0 g.nextDirection).y ≥ GRID_SIZE ∨
       moveHead h0 g.nextDirection ∈ g.snake)) ∧
    (g'.gameState = GameState.gameOver →
      g'.snake = g.snake ∧ g'.food = g.food ∧ g'.score = g.score ∧
      g'.highScore = g.highScore ∧ g'.storage = g.storage) := by
  cases hcc : checkCollision (moveHead h0 g.nextDirection) g.snake with
  | true =>
    have heq := step_collision_eq randoms g h0 rest hs hcc
    rw [hstep] at heq
    injection heq with heq
    subst heq
    refine ⟨⟨fun _ => (checkCollision_iff _ _).mp hcc, fun _ => rfl⟩, ?_⟩
    intro _
    exact ⟨rfl, rfl, rfl, rfl, rfl⟩
  | false =>
    have hgs : g'.gameState = g.gameState := by
      cases hff : sameCell (moveHead h0 g.nextDirection) g.food with
      | false =>
        have heq := step_move_eq randoms g h0 rest hs hcc hff
        rw [hstep] at heq
        injection heq with heq
        subst heq
        rfl
      | true =>
        rcases hgf : generateFood randoms (moveHead h0 g.nextDirection :: g.snake) with _ | f
        · rw [step_eat_none randoms g h0 rest hs hcc hff hgf] at hstep
          cases hstep
        · have heq := step_eat_eq randoms g h0 rest f hs hcc hff hgf
          rw [hstep] at heq
          injection heq with heq
          subst heq
          rfl
    rw [hgs, hplay]
    constructor
    · constructor
      · intro h
        exact absurd h (by decide)
      · intro hcond
        have := (checkCollision_iff (moveHead h0 g.nextDirection) g.snake).mpr hcond
        rw [hcc] at this
        cases this
    · intro h
      exact absurd h (by decide)

/-- C3 witness: the spec scenario of a head at `(0,5)` moving left — the new
head `(-1,5)` is out of bounds, the phase terminates, and snake, food and score
survive unchanged. -/
theorem C3_collision_terminates_witness :
    (wallG.snake = { x := 0, y := 5 } :: [] ∧ wallG.gameState = GameState.playing ∧
     step [] wallG = some wallResult) ∧
    ((wallResult.gameState = GameState.gameOver ↔
      ((moveHead { x := 0, y := 5 } wallG.nextDirection).x < 0 ∨
       (moveHead { x := 0, y := 5 } wallG.nextDirection).x ≥ GRID_SIZE ∨
       (moveHead { x := 0, y := 5 } wallG.nextDirection).y < 0 ∨
       (moveHead { x := 0, y := 5 } wallG.nextDirection).y ≥ GRID_SIZE ∨
       moveHead { x := 0, y := 5 } wallG.nextDirection ∈ wallG.snake)) ∧
     (wallResult.gameState = GameState.gameOver →
       wallResult.snake = wallG.snake ∧ wallResult.food = wallG.food ∧
       wallResult.score = wallG.score ∧ wallResult.highScore = wallG.highScore ∧
       wallResult.storage = wallG.storage)) :=
  ⟨⟨rfl, rfl, by decide⟩,
   C3_collision_terminates [] wallG wallResult { x := 0, y := 5 } [] rfl rfl (by decide)⟩


/-- C5: while `playing`, an input equal to the reverse of the committed facing
direction leaves the whole state unchanged on each input path — keyboard,
swipe, and on-screen button — because every filter compares against `direction`
(the facing direction), not `nextDirection`. -/
theorem C5_reversal_rejected (g : Game) (randoms : List Position) (k : String)
    (deltaX deltaY : Int) (hplay : g.gameState = GameState.playing) :
    (keyToDirection k = some (opposites g.direction) →
      handleKeyPress k randoms g = some g) ∧
    handleDirectionClick (opposites g.direction) g = g ∧
    (¬ (deltaX.natAbs < 30 ∧ deltaY.natAbs < 30) →
      swipeDir deltaX deltaY = opposites g.direction →
      handleTouchEnd deltaX deltaY randoms g = some g) := by
  refine ⟨?_, ?_, ?_⟩
  · intro hk
    have hksp := keyToDirection_ne_space k _ hk
    simp [handleKeyPress, hplay, hksp, hk]
  · simp [handleDirectionClick, hplay]
  · intro hswipe hdir
    simp [handleTouchEnd, hswipe, hplay, hdir]

/-- C5 witness: facing `Up` while playing, a `Down` input (ArrowDown key,
downward swipe, or the Down button) leaves the scenario state unchanged. -/
theorem C5_reversal_rejected_witness :
    (scenarioG.gameState = GameState.playing ∧
     keyToDirection keyArrowDown = some (opposites scenarioG.direction) ∧
     ¬ ((0 : Int).natAbs < 30 ∧ (40 : Int).natAbs < 30) ∧
     swipeDir 0 40 = opposites scenarioG.direction) ∧
    (handleKeyPress keyArrowDown [] scenarioG = some scenarioG ∧
     handleDirectionClick (opposites scenarioG.direction) scenarioG = scenarioG ∧
     handleTouchEnd 0 40 [] scenarioG = some scenarioG) :=
  ⟨⟨rfl, by decide, by decide, by decide⟩,
   (C5_reversal_rejected scenarioG [] keyArrowDown 0 40 rfl).1 (by decide),
   (C5_reversal_rejected scenarioG [] keyArrowDown 0 40 rfl).2.1,
   (C5_reversal_rejected scenarioG [] keyArrowDown 0 40 rfl).2.2 (by decide) (by decide)⟩

/-- C7 counterexample: while paused and facing `Up`, the ArrowLeft key changes
the pending direction to `Left`, so a direction input while Paused is not
ignored on the keyboard path. -/
theorem C7_counterexample :
    pausedG.gameState = GameState.paused ∧
    pausedG.nextDirection = Direction.UP ∧
    handleKeyPress keyArrowLeft [] pausedG =
      some { pausedG with nextDirection := Direction.LEFT } :=
  ⟨rfl, rfl, by decide⟩

/-- C7 amended: while paused, direction inputs from swipes and on-screen
buttons are ignored, but keyboard direction inputs still pass through the
reversal filter and update the pending direction. -/
theorem C7_amended_paused (g : Game) (randoms : List Position) (k : String)
    (d : Direction) (deltaX deltaY : Int) (hp : g.gameState = GameState.paused) :
    handleDirectionClick d g = g ∧
    (¬ (deltaX.natAbs < 30 ∧ deltaY.natAbs < 30) →
      handleTouchEnd deltaX deltaY randoms g = some g) ∧
    (keyToDirection k = some d → opposites g.direction ≠ d →
      handleKeyPress k randoms g = some { g with nextDirection := d }) ∧
    (keyToDirection k = some d → opposites g.direction = d →
      handleKeyPress k randoms g = some g) := by
  refine ⟨?_, ?_, ?_, ?_⟩
  · simp [handleDirectionClick, hp]
  · intro hswipe
    simp [handleTouchEnd, hswipe, hp]
  · intro hk hop
    have hksp := keyToDirection_ne_space k _ hk
    simp [handleKeyPress, hp, hksp, hk, hop]
  · intro hk hop
    have hksp := keyToDirection_ne_space k _ hk
    simp [handleKeyPress, hp, hksp, hk, hop]

/-- C7 amended witness: concrete paused state exercising all paths. -/
theorem C7_amended_paused_witness :
    pausedG.gameState = GameState.paused ∧
    (handleDirectionClick Direction.LEFT pausedG = pausedG ∧
     (¬ ((0 : Int).natAbs < 30 ∧ (40 : Int).natAbs < 30) →
       handleTouchEnd 0 40 [] pausedG = some pausedG) ∧
     (keyToDirection keyArrowLeft = some Direction.LEFT →
       opposites pausedG.direction ≠ Direction.LEFT →
       handleKeyPress keyArrowLeft [] pausedG =
         some { pausedG with nextDirection := Direction.LEFT }) ∧
     (keyToDirection keyArrowLeft = some Direction.LEFT →
       opposites pausedG.direction = Direction.LEFT →
       handleKeyPress keyArrowLeft [] pausedG = some pausedG)) :=
  ⟨rfl, C7_amended_paused pausedG [] keyArrowLeft Direction.LEFT 0 40 rfl⟩

/-- C8 counterexample: while idle, the `w` key — a direction input — leaves the
state unchanged (phase stays `idle`), and an arrow key starts the game without
setting the pressed direction as pending. -/
theorem C8_counterexample :
    (initialGame 0 none).gameState = GameState.idle ∧
    keyToDirection keyW = some Direction.UP ∧
    handleKeyPress keyW [] (initialGame 0 none) = some (initialGame 0 none) ∧
    handleKeyPress keyArrowLeft [] (initialGame 0 none) =
      some { initialGame 0 none with gameState := GameState.playing } ∧
    (initialGame 0 none).nextDirection = Direction.UP ∧
    Direction.UP ≠ Direction.LEFT :=
  ⟨rfl, by decide, by decide, by decide, rfl, by decide⟩

/-- C8 amended: while idle, an arrow key or space starts the game without
touching the pending direction, any other key (including WASD) is ignored,
swipes are ignored, and only the on-screen buttons start the game and set the
pressed direction as pending. -/
theorem C8_amended_idle (g : Game) (randoms : List Position) (k : String)
    (d : Direction) (deltaX deltaY : Int) (hp : g.gameState = GameState.idle) :
    ((k = "ArrowUp" ∨ k = "ArrowDown" ∨ k = "ArrowLeft" ∨ k = "ArrowRight" ∨ k = " ") →
      handleKeyPress k randoms g = some { g with gameState := GameState.playing }) ∧
    (¬ (k = "ArrowUp" ∨ k = "ArrowDown" ∨ k = "ArrowLeft" ∨ k = "ArrowRight" ∨ k = " ") →
      handleKeyPress k randoms g = some g) ∧
    (¬ (deltaX.natAbs < 30 ∧ deltaY.natAbs < 30) →
      handleTouchEnd deltaX deltaY randoms g = some g) ∧
    handleDirectionClick d g = { g with gameState := GameState.playing, nextDirection := d } := by
  refine ⟨?_, ?_, ?_, ?_⟩
  · intro hk
    rcases hk with h | h | h | h | h <;> subst h <;> simp [handleKeyPress, hp, startGame]
  · intro hk
    unfold handleKeyPress
    rw [hp]
    rw [if_pos rfl, if_neg hk]
  · intro hswipe
    simp [handleTouchEnd, hswipe, hp]
  · simp [handleDirectionClick, hp]

/-- C8 amended witness: in the idle mount state, ArrowLeft starts the game
without setting pending, `w` is ignored, a 40-unit swipe is ignored, and the
Left button starts the game with `Left` pending. -/
theorem C8_amended_idle_witness :
    (initialGame 0 none).gameState = GameState.idle ∧
    (((keyArrowLeft = "ArrowUp" ∨ keyArrowLeft = "ArrowDown" ∨ keyArrowLeft = "ArrowLeft" ∨
        keyArrowLeft = "ArrowRight" ∨ keyArrowLeft = " ") →
      handleKeyPress keyArrowLeft [] (initialGame 0 none) =
        some { initialGame 0 none with gameState := GameState.playing }) ∧
     (¬ (keyArrowLeft = "ArrowUp" ∨ keyArrowLeft = "ArrowDown" ∨ keyArrowLeft = "ArrowLeft" ∨
        keyArrowLeft = "ArrowRight" ∨ keyArrowLeft = " ") →
      handleKeyPress keyArrowLeft [] (initialGame 0 none) = some (initialGame 0 none)) ∧
     (¬ ((0 : Int).natAbs < 30 ∧ (40 : Int).natAbs < 30) →
      handleTouchEnd 0 40 [] (initialGame 0 none) = some (initialGame 0 none)) ∧
     handleDirectionClick Direction.LEFT (initialGame 0 none) =
       { initialGame 0 none with gameState := GameState.playing,
                                 nextDirection := Direction.LEFT }) :=
  ⟨rfl, C8_amended_idle (initialGame 0 none) [] keyArrowLeft Direction.LEFT 0 40 rfl⟩


/-- The mount-time state satisfies the invariant: three distinct snake cells
and the fixed food `(5,5)` off the snake. -/
lemma inv_init (hs : Int) (stored : Option String) : Inv (initialGame hs stored) := by
  refine ⟨?_, ?_, ?_⟩
  · show INITIAL_SNAKE ≠ []
    decide
  · show INITIAL_SNAKE.Nodup
    decide
  · show ({ x := 5, y := 5 } : Position) ∉ INITIAL_SNAKE
    decide

/-- A reset reestablishes the invariant: initial snake, food sampled off it. -/
lemma inv_resetGame (randoms : List Position) (g g' : Game)
    (h : resetGame randoms g = some g') : Inv g' := by
  rcases hgf : generateFood randoms INITIAL_SNAKE with _ | f
  · simp only [resetGame, hgf] at h
    cases h
  · simp only [resetGame, hgf] at h
    injection h with h
    subst h
    refine ⟨?_, ?_, ?_⟩
    · show INITIAL_SNAKE ≠ []
      decide
    · show INITIAL_SNAKE.Nodup
      decide
    · exact generateFood_not_mem _ _ _ hgf

/-- One game-loop tick preserves the invariant. -/
lemma inv_step (randoms : List Position) (g g' : Game) (hi : Inv g)
    (h : step randoms g = some g') : Inv g' := by
  obtain ⟨hne, hnd, hfm⟩ := hi
  rcases hsn : g.snake with _ | ⟨h0, rest⟩
  · exact absurd hsn hne
  · cases hcc : checkCollision (moveHead h0 g.nextDirection) g.snake with
    | true =>
      have heq := step_collision_eq randoms g h0 rest hsn hcc
      rw [h] at heq
      injection heq with heq
      subst heq
      exact ⟨hne, hnd, hfm⟩
    | false =>
      have hmem : moveHead h0 g.nextDirection ∉ g.snake :=
        checkCollision_false_not_mem _ _ hcc
      cases hff : sameCell (moveHead h0 g.nextDirection) g.food with
      | true =>
        rcases hgf : generateFood randoms (moveHead h0 g.nextDirection :: g.snake) with _ | f
        · rw [step_eat_none randoms g h0 rest hsn hcc hff hgf] at h
          cases h
        · have heq := step_eat_eq randoms g h0 rest f hsn hcc hff hgf
          rw [h] at heq
          injection heq with heq
          subst heq
          refine ⟨by simp, ?_, ?_⟩
          · exact List.nodup_cons.mpr ⟨hmem, hnd⟩
          · exact generateFood_not_mem _ _ _ hgf
      | false =>
        have heq := step_move_eq randoms g h0 rest hsn hcc hff
        rw [h] at heq
        injection heq with heq
        subst heq
        have hsub := List.dropLast_sublist g.snake
        refine ⟨by simp, ?_, ?_⟩
        · exact List.nodup_cons.mpr
            ⟨fun hm => hmem (List.Sublist.subset hsub hm), List.Nodup.sublist hsub hnd⟩
        · intro hm
          rcases List.mem_cons.mp hm with h1 | h2
          · have hsc : sameCell (moveHead h0 g.nextDirection) g.food = true :=
              (sameCell_iff _ _).mpr h1.symm
            rw [hff] at hsc
            cases hsc
          · exact hfm (List.Sublist.subset hsub h2)

/-- A keyboard event preserves the invariant. -/
lemma inv_handleKeyPress (k : String) (randoms : List Position) (g g' : Game)
    (hi : Inv g) (h : handleKeyPress k randoms g = some g') : Inv g' := by
  unfold handleKeyPress at h
  split_ifs at h with h1 h2 h3 h4 h5
  all_goals try (injection h with h; subst h; exact hi)
  · exact inv_resetGame randoms g g' h
  · rcases hkd : keyToDirection k with _ | nd
    · simp only [hkd] at h
      injection h with h
      subst h
      exact hi
    · simp only [hkd] at h
      split_ifs at h
      · injection h with h
        subst h
        exact hi
      · injection h with h
        subst h
        exact hi

/-- A touch gesture preserves the invariant. -/
lemma inv_handleTouchEnd (deltaX deltaY : Int) (randoms : List Position) (g g' : Game)
    (hi : Inv g) (h : handleTouchEnd deltaX deltaY randoms g = some g') : Inv g' := by
  unfold handleTouchEnd at h
  split_ifs at h
  all_goals try (injection h with h; subst h; exact hi)
  exact inv_resetGame randoms g g' h

/-- Every event preserves the invariant. -/
lemma inv_applyEvent (e : Event) (g g' : Game) (hi : Inv g)
    (h : applyEvent e g = some g') : Inv g' := by
  cases e with
  | tick randoms =>
    unfold applyEvent at h
    split_ifs at h
    · exact inv_step randoms g g' hi h
    · injection h with h
      subst h
      exact hi
  | key k randoms =>
    exact inv_handleKeyPress k randoms g g' hi h
  | dirClick d =>
    injection h with h
    subst h
    unfold handleDirectionClick
    split_ifs <;> exact hi
  | touch dx dy randoms =>
    exact inv_handleTouchEnd dx dy randoms g g' hi h
  | startBtn =>
    injection h with h
    subst h
    exact hi
  | resetBtn randoms =>
    exact inv_resetGame randoms g g' h

/-- Every reachable state satisfies the invariant. -/
lemma reachable_inv (g : Game) (h : Reachable g) : Inv g := by
  induction h with
  | init hs stored => exact inv_init hs stored
  | next g g' e hr happ ih => exact inv_applyEvent e g g' ih happ

/-- C4: in every reachable state the snake has at least one cell and no
duplicate cells, and the food never lies on the snake (in particular not right
after any placement). -/
theorem C4_reachable_invariants (g : Game) (h : Reachable g) :
    1 ≤ g.snake.length ∧ g.snake.Nodup ∧ g.food ∉ g.snake := by
  obtain ⟨hne, hnd, hfm⟩ := reachable_inv g h
  exact ⟨List.length_pos.mpr hne, hnd, hfm⟩

/-- C4 witness: the mount-time state is reachable and satisfies the invariant. -/
theorem C4_reachable_invariants_witness :
    Reachable (initialGame 0 none) ∧
    (1 ≤ (initialGame 0 none).snake.length ∧ (initialGame 0 none).snake.Nodup ∧
     (initialGame 0 none).food ∉ (initialGame 0 none).snake) :=
  ⟨Reachable.init 0 none, C4_reachable_invariants (initialGame 0 none) (Reachable.init 0 none)⟩


/-- C6: across a step the high score is monotone and becomes the maximum of its
previous value and the new score, and the write-through to storage happens
exactly when the new score strictly beats the previous high score. -/
theorem C6_highscore_max (randoms : List Position) (g g' : Game)
    (hsc : (g.score : Int) ≤ g.highScore)
    (hstep : step randoms g = some g') :
    g'.highScore = max g.highScore (g'.score : Int) ∧
    g.highScore ≤ g'.highScore ∧
    (g.highScore < (g'.score : Int) →
      g'.highScore = (g'.score : Int) ∧ g'.storage = some (toString g'.score)) ∧
    ((g'.score : Int) ≤ g.highScore → g'.storage = g.storage) := by
  rcases hsn : g.snake with _ | ⟨h0, rest⟩
  · simp [step, hsn] at hstep
  · cases hcc : checkCollision (moveHead h0 g.nextDirection) g.snake with
    | true =>
      have heq := step_collision_eq randoms g h0 rest hsn hcc
      rw [hstep] at heq
      injection heq with heq
      subst heq
      refine ⟨(max_eq_left hsc).symm, le_refl _, ?_, fun _ => rfl⟩
      intro hlt
      exact absurd hlt (not_lt.mpr hsc)
    | false =>
      cases hff : sameCell (moveHead h0 g.nextDirection) g.food with
      | false =>
        have heq := step_move_eq randoms g h0 rest hsn hcc hff
        rw [hstep] at heq
        injection heq with heq
        subst heq
        refine ⟨(max_eq_left hsc).symm, le_refl _, ?_, fun _ => rfl⟩
        intro hlt
        exact absurd hlt (not_lt.mpr hsc)
      | true =>
        rcases hgf : generateFood randoms (moveHead h0 g.nextDirection :: g.snake) with _ | f
        · rw [step_eat_none randoms g h0 rest hsn hcc hff hgf] at hstep
          cases hstep
        · have heq := step_eat_eq randoms g h0 rest f hsn hcc hff hgf
          rw [hstep] at heq
          injection heq with heq
          subst heq
          by_cases hlt : ((g.score + 10 : Nat) : Int) > g.highScore
          · refine ⟨?_, ?_, ?_, ?_⟩
            · show (if ((g.score + 10 : Nat) : Int) > g.highScore
                    then ((g.score + 10 : Nat) : Int) else g.highScore) =
                max g.highScore ((g.score + 10 : Nat) : Int)
              rw [if_pos hlt]
              exact (max_eq_right (le_of_lt hlt)).symm
            · show g.highScore ≤ (if ((g.score + 10 : Nat) : Int) > g.highScore
                    then ((g.score + 10 : Nat) : Int) else g.highScore)
              rw [if_pos hlt]
              exact le_of_lt hlt
            · intro _
              exact ⟨if_pos hlt, if_pos hlt⟩
            · intro hle
              exact absurd hlt (not_lt.mpr hle)
          · refine ⟨?_, ?_, ?_, ?_⟩
            · show (if ((g.score + 10 : Nat) : Int) > g.highScore
                    then ((g.score + 10 : Nat) : Int) else g.highScore) =
                max g.highScore ((g.score + 10 : Nat) : Int)
              rw [if_neg hlt]
              exact (max_eq_left (not_lt.mp hlt)).symm
            · show g.highScore ≤ (if ((g.score + 10 : Nat) : Int) > g.highScore
                    then ((g.score + 10 : Nat) : Int) else g.highScore)
              rw [if_neg hlt]
            · intro hlt2
              exact absurd hlt2 hlt
            · intro _
              exact if_neg hlt

/-- C6 witness: eating from score 0 with high score 0 raises the high score to
10 = max 0 10 and writes it through to storage. -/
theorem C6_highscore_max_witness :
    ((eatG.score : Int) ≤ eatG.highScore ∧ step [{ x := 0, y := 0 }] eatG = some eatResult) ∧
    (eatResult.highScore = max eatG.highScore (eatResult.score : Int) ∧
     eatG.highScore ≤ eatResult.highScore ∧
     (eatG.highScore < (eatResult.score : Int) →
       eatResult.highScore = (eatResult.score : Int) ∧
       eatResult.storage = some (toString eatResult.score)) ∧
     ((eatResult.score : Int) ≤ eatG.highScore → eatResult.storage = eatG.storage)) :=
  ⟨⟨by decide, by decide⟩,
   C6_highscore_max [{ x := 0, y := 0 }] eatG eatResult (by decide) (by decide)⟩

/-- C9 counterexample: the state is created with the fixed food `(5,5)`, not a
freshly randomized cell — on the concrete random stream `[(0,0)]` a fresh
rejection-sampling draw over the initial snake yields `(0,0)`, while the
creation-time food is `(5,5)` for every random stream. -/
theorem C9_counterexample :
    specFreshFood [{ x := 0, y := 0 }] = some { x := 0, y := 0 } ∧
    (initialGame 0 none).food = { x := 5, y := 5 } ∧
    ({ x := 0, y := 0 } : Position) ≠ { x := 5, y := 5 } :=
  ⟨by decide, rfl, by decide⟩

/-- C9 amended: the state is created at `idle` with score 0, the initial snake
and directions, the fixed food `(5,5)`, and the loaded high score; a reset
restores score, snake, directions and phase to the initial configuration,
keeps high score and storage, and rerolls the food off the initial snake. -/
theorem C9_amended_reset (hs : Int) (stored : Option String) (g g' : Game)
    (randoms : List Position) (hr : resetGame randoms g = some g') :
    ((initialGame hs stored).gameState = GameState.idle ∧
     (initialGame hs stored).score = 0 ∧
     (initialGame hs stored).snake = INITIAL_SNAKE ∧
     (initialGame hs stored).food = { x := 5, y := 5 } ∧
     (initialGame hs stored).direction = INITIAL_DIRECTION ∧
     (initialGame hs stored).nextDirection = INITIAL_DIRECTION ∧
     (initialGame hs stored).highScore = hs) ∧
    (g'.score = 0 ∧ g'.snake = INITIAL_SNAKE ∧ g'.direction = INITIAL_DIRECTION ∧
     g'.nextDirection = INITIAL_DIRECTION ∧ g'.gameState = GameState.idle ∧
     g'.highScore = g.highScore ∧ g'.storage = g.storage ∧ g'.food ∉ g'.snake) := by
  refine ⟨⟨rfl, rfl, rfl, rfl, rfl, rfl, rfl⟩, ?_⟩
  rcases hgf : generateFood randoms INITIAL_SNAKE with _ | f
  · simp only [resetGame, hgf] at hr
    cases hr
  · simp only [resetGame, hgf] at hr
    injection hr with hr
    subst hr
    exact ⟨rfl, rfl, rfl, rfl, rfl, rfl, rfl, generateFood_not_mem _ _ _ hgf⟩

/-- C9 amended witness: resetting a finished game with score 30 and high score
50 restores the initial configuration with food `(0,0)` and keeps the high
score 50. -/
theorem C9_amended_reset_witness :
    resetGame [{ x := 0, y := 0 }] doneG = some resetResult ∧
    (((initialGame 0 none).gameState = GameState.idle ∧
      (initialGame 0 none).score = 0 ∧
      (initialGame 0 none).snake = INITIAL_SNAKE ∧
      (initialGame 0 none).food = { x := 5, y := 5 } ∧
      (initialGame 0 none).direction = INITIAL_DIRECTION ∧
      (initialGame 0 none).nextDirection = INITIAL_DIRECTION ∧
      (initialGame 0 none).highScore = 0) ∧
     (resetResult.score = 0 ∧ resetResult.snake = INITIAL_SNAKE ∧
      resetResult.direction = INITIAL_DIRECTION ∧
      resetResult.nextDirection = INITIAL_DIRECTION ∧
      resetResult.gameState = GameState.idle ∧
      resetResult.highScore = doneG.highScore ∧
      resetResult.storage = doneG.storage ∧ resetResult.food ∉ resetResult.snake)) :=
  ⟨by decide, C9_amended_reset 0 none doneG resetResult [{ x := 0, y := 0 }] (by decide)⟩

/-- C10: a missing stored value (and the falsy empty string) leaves the high
score 0, but a stored string that `parseInt` cannot read as a number makes the
mount effect set the high score to NaN rather than falling back to 0 — the
code diverges from the claimed fallback on input "abc". -/
theorem C10_nan_highscore :
    initHighScore none = JsNum.num 0 ∧
    initHighScore (some strEmpty) = JsNum.num 0 ∧
    initHighScore (some strAbc) = JsNum.nan ∧
    JsNum.nan ≠ JsNum.num 0 :=
  ⟨rfl, by decide, by decide, by decide⟩


end Snake
